import Mathlib

/-!
Verification of the go-guac repository (Guacamole protocol codec, handshake
and tunnel forwarding engine) against its natural-language specification.

Embedding conventions:
* A Go string is modelled as its sequence of Unicode code points
  (`List Char`).  Go code slices strings at byte indices, but every index
  the source computes is the position of an ASCII delimiter (`.`, `,`, `;`)
  or a sum of whole-rune sizes, so on valid UTF-8 data byte positions and
  code-point positions name the same cut points; the `List Char` view is
  therefore faithful while keeping code-point counting (the length semantics of the protocol) primitive.
* Operations that can panic in Go (slicing at index -1, indexing past the
  end of a string) return `Option`, with `none` marking the panic.
* `strconv.Atoi` / `strconv.ParseInt` are used by the source with their
  error result discarded, which yields 0 on a syntax error; `goAtoi`
  reproduces exactly that (range overflow is irrelevant at the sizes the
  protocol uses and is not modelled).
-/

namespace GoGuac

/-- Go string as its sequence of Unicode code points. -/
abbrev GoStr := List Char

/-- Number of UTF-8 bytes of a string (what the length prefix is NOT). -/
def utf8Len (s : GoStr) : Nat := (s.map Char.utf8Size).sum

/-- `strings.Index` for a one-character pattern: index of the first
occurrence, `none` for the -1 of Go. -/
def strIndex : GoStr → Char → Option Nat
  | [], _ => none
  | c :: cs, t => if c = t then some 0 else (strIndex cs t).map (· + 1)

/-- `strings.LastIndex` for a one-character pattern. -/
def strLastIndex (s : GoStr) (t : Char) : Option Nat :=
  (strIndex s.reverse t).map (fun i => s.length - 1 - i)

/-- Numeric value of a decimal digit character. -/
def digitVal (c : Char) : Nat := c.toNat - 48

/-- Value of a string of decimal digits, most significant first. -/
def digitsVal (s : GoStr) : Nat := s.foldl (fun a c => 10 * a + digitVal c) 0

/-- The decimal digit character for `d < 10`. -/
def natToDigitChar : Nat → Char
  | 0 => '0'
  | 1 => '1'
  | 2 => '2'
  | 3 => '3'
  | 4 => '4'
  | 5 => '5'
  | 6 => '6'
  | 7 => '7'
  | 8 => '8'
  | 9 => '9'
  | _ => '?'

/-- Decimal digits of `n`, most significant first (`[]` for 0); the fuel
argument only forces structural termination and is immaterial once it is
at least `n`. -/
def natToStrRec : Nat → Nat → GoStr
  | 0, _ => []
  | fuel + 1, n =>
    if n = 0 then [] else natToStrRec fuel (n / 10) ++ [natToDigitChar (n % 10)]

/-- `strconv.Itoa` on a natural number. -/
def natToStr (n : Nat) : GoStr := if n = 0 then ['0'] else natToStrRec n n

/-- `strconv.Itoa` / `strconv.FormatInt` on an integer. -/
def intToStr (i : Int) : GoStr :=
  if i < 0 then '-' :: natToStr i.natAbs else natToStr i.toNat

/-- `strconv.Atoi` with the error discarded (the source always discards
it): optional sign followed by decimal digits, anything else gives 0. -/
def goAtoi : GoStr → Int
  | [] => 0
  | c :: cs =>
    if c = '+' then
      if cs ≠ [] ∧ cs.all Char.isDigit then (digitsVal cs : Int) else 0
    else if c = '-' then
      if cs ≠ [] ∧ cs.all Char.isDigit then -(digitsVal cs : Int) else 0
    else if (c :: cs).all Char.isDigit then (digitsVal (c :: cs) : Int) else 0

/-! ## The wire codec (package protocol, instruction source file) -/

/-- An `Element` is a Go string of shape `LENGTH.VALUE`. -/
abbrev Element := GoStr

/-- `NewElement`: length prefix = count of Unicode code points (the source
uses `utf8.RuneCountInString`), then `.`, then the value. -/
def NewElement (s : GoStr) : Element := natToStr s.length ++ '.' :: s

/-- `Element.Length`: parse the decimal prefix before the first `.`;
`none` models the panic of `s[:-1]` when no `.` exists. -/
def Element.Length (e : Element) : Option Int :=
  match strIndex e '.' with
  | none => none
  | some idx => some (goAtoi (e.take idx))

/-- `Element.Value`: everything after the first `.`.  When no `.` exists
Go computes `s[-1+1:] = s`, so the whole string is returned (no panic). -/
def Element.Value (e : Element) : GoStr :=
  match strIndex e '.' with
  | none => e
  | some idx => e.drop (idx + 1)

/-- An `Instruction` is a Go string `OPCODE,ARG1,...;`. -/
abbrev Instruction := GoStr

/-- `strings.Join` with separator `","`. -/
def joinComma : List GoStr → GoStr
  | [] => []
  | [s] => s
  | s :: r :: rest => s ++ ',' :: joinComma (r :: rest)

/-- `NewInstruction`: encode opcode and arguments as elements, join with
commas, terminate with `;`. -/
def NewInstruction (opcode : GoStr) (args : List GoStr) : Instruction :=
  joinComma ((opcode :: args).map NewElement) ++ [';']

/-- `Instruction.Opcode`: up to the first `,`; with no comma, up to the
last `;` (`none` models the `s[:-1]` panic when neither exists). -/
def Instruction.Opcode (i : Instruction) : Option Element :=
  match strIndex i ',' with
  | none =>
    match strLastIndex i ';' with
    | none => none
    | some j => some (i.take j)
  | some idx => some (i.take idx)

/-- Position one past the last consumed code point of the element starting
at the length prefix located by `dotIndex`: the inner loop of the source advances `end` by
one rune per iteration while runes remain (`utf8.DecodeRuneInString`
returns size 0 on an empty suffix, so `end` saturates at the end of the string), hence `end = start + min length remaining`. -/
def argEnd (args : GoStr) (dotIndex : Nat) : Nat :=
  dotIndex + 1 + min (goAtoi (args.take dotIndex)).toNat (args.length - (dotIndex + 1))

/-- One iteration of the outer loop of `Instruction.Args` per fuel unit.
`none` models the panics: `args[:dotIndex]` with no `.` present, and the
`args[end]` index when `end` runs past the end of the string.  The fuel
only forces termination; each iteration consumes at least two characters,
so any fuel above the element count is immaterial. -/
def argsLoop : Nat → GoStr → Option (List Element)
  | 0, _ => none
  | fuel + 1, args =>
    match strIndex args '.' with
    | none => none
    | some dotIndex =>
      match args[argEnd args dotIndex]? with
      | none => none
      | some c =>
        if c = ';' then some [args.take (argEnd args dotIndex)]
        else
          match argsLoop fuel (args.drop (argEnd args dotIndex + 1)) with
          | none => none
          | some rest => some (args.take (argEnd args dotIndex) :: rest)

/-- `Instruction.Args`: empty when the instruction has no comma, else the
loop over the suffix after the first comma. -/
def Instruction.Args (i : Instruction) : Option (List Element) :=
  match strIndex i ',' with
  | none => some []
  | some commaIdx => argsLoop (i.length + 1) (i.drop (commaIdx + 1))

/-- `Instruction.IsError`: opcode value equals `"error"` (`none` when
`Opcode` panics). -/
def Instruction.IsError (i : Instruction) : Option Bool :=
  match Instruction.Opcode i with
  | none => none
  | some o => some (decide (Element.Value o = "error".data))

/-! ## Status codes (protocol/status.go) -/

/-- `Status.String`: decimal code followed by the symbolic name, with
`_UNKNOWN` for a code outside the enumeration. -/
def statusString (s : Int) : GoStr :=
  let code := intToStr s
  if s = 0 then code ++ "_SUCCESS".data
  else if s = 256 then code ++ "_UNSUPPORTED".data
  else if s = 512 then code ++ "_SERVER_ERROR".data
  else if s = 513 then code ++ "_SERVER_BUSY".data
  else if s = 514 then code ++ "_UPSTREAM_TIMEOUT".data
  else if s = 515 then code ++ "_UPSTREAM_ERROR".data
  else if s = 516 then code ++ "_RESOURCE_NOT_FOUND".data
  else if s = 517 then code ++ "_RESOURCE_CONFLICT".data
  else if s = 518 then code ++ "_RESOURCE_CLOSED".data
  else if s = 519 then code ++ "_UPSTREAM_NOT_FOUND".data
  else if s = 520 then code ++ "_UPSTREAM_UNAVAILABLE".data
  else if s = 521 then code ++ "_SESSION_CONFLICT".data
  else if s = 522 then code ++ "_SESSION_TIMEOUT".data
  else if s = 523 then code ++ "_SESSION_CLOSED".data
  else if s = 768 then code ++ "_CLIENT_BAD_REQUEST".data
  else if s = 769 then code ++ "_CLIENT_UNAUTHORIZED".data
  else if s = 771 then code ++ "_CLIENT_FORBIDDEN".data
  else if s = 776 then code ++ "_CLIENT_TIMEOUT".data
  else if s = 781 then code ++ "_CLIENT_OVERRUN".data
  else if s = 783 then code ++ "_CLIENT_BAD_TYPE".data
  else if s = 797 then code ++ "_CLIENT_TOO_MANY".data
  else code ++ "_UNKNOWN".data

/-- The status codes named in the `Status` enumeration. -/
def recognizedStatusCodes : List Int :=
  [0, 256, 512, 513, 514, 515, 516, 517, 518, 519, 520, 521, 522, 523,
   768, 769, 771, 776, 781, 783, 797]

/-- `Instruction.Error`: `nil` for a non-error instruction; for an error
instruction, `fmt.Errorf("server error: %s %s", status.String(), message)`
with `message = args[0].Value()` and the status parsed from
`args[1].Value()`.  Outer `none` models a panic (in `IsError`, in `Args`,
or indexing `args[0]`/`args[1]` on fewer than two arguments); the inner
option is the Go error value (`none` = nil). -/
def Instruction.Error (i : Instruction) : Option (Option GoStr) :=
  match Instruction.IsError i with
  | none => none
  | some false => some none
  | some true =>
    match Instruction.Args i with
    | none => none
    | some (a0 :: a1 :: _) =>
      some (some ("server error: ".data ++ statusString (goAtoi (Element.Value a1))
        ++ ' ' :: Element.Value a0))
    | some _ => none

/-- The serialized argument region of an encoded instruction with at
least one argument: elements joined by commas, closed by the final
semicolon (used only to restate `NewInstruction` for proofs). -/
def encodeArgs : GoStr → List GoStr → GoStr
  | a, [] => NewElement a ++ [';']
  | a, b :: l => NewElement a ++ ',' :: encodeArgs b l

/-! ## Handshake configuration (protocol handshake source file) -/

/-- Go `map[string]string` lookup on an insertion-ordered association
list: first matching key, the zero value `""` when absent. -/
def mapGet : List (GoStr × GoStr) → GoStr → GoStr
  | [], _ => []
  | (k, v) :: rest, key => if k = key then v else mapGet rest key

/-- Go `map[string]string` assignment: overwrite an existing key, append
a new one. -/
def mapSet : List (GoStr × GoStr) → GoStr → GoStr → List (GoStr × GoStr)
  | [], k, v => [(k, v)]
  | (k', v') :: rest, k, v =>
    if k' = k then (k, v) :: rest else (k', v') :: mapSet rest k v

/-- `HandshakeConfig` (protocol package). -/
structure HandshakeConfig where
  protocol : GoStr
  connectArgs : List (GoStr × GoStr)
  width : Int
  height : Int
  dpi : Int
  audioCodecs : List GoStr
  videoCodecs : List GoStr
  imageFormats : List GoStr

/-- A `HandshakeOption` mutates the config under construction. -/
abbrev HandshakeOption := HandshakeConfig → HandshakeConfig

/-- `WithProtocol`. -/
def WithProtocol (p : GoStr) : HandshakeOption := fun c => { c with protocol := p }

/-- `WithDomain`. -/
def WithDomain (d : GoStr) : HandshakeOption := fun c =>
  { c with connectArgs := mapSet c.connectArgs "domain".data d }

/-- `WithAuth`: sets `username` then `password`. -/
def WithAuth (username password : GoStr) : HandshakeOption := fun c =>
  { c with connectArgs :=
      mapSet (mapSet c.connectArgs "username".data username) "password".data password }

/-- `WithHostPort`: sets `hostname` then `port`. -/
def WithHostPort (host port : GoStr) : HandshakeOption := fun c =>
  { c with connectArgs :=
      mapSet (mapSet c.connectArgs "hostname".data host) "port".data port }

/-- `WithScreen`. -/
def WithScreen (width height dpi : Int) : HandshakeOption := fun c =>
  { c with width := width, height := height, dpi := dpi }

/-- `WithAudioCodecs`. -/
def WithAudioCodecs (codecs : List GoStr) : HandshakeOption := fun c =>
  { c with audioCodecs := codecs }

/-- `WithVideoCodecs`. -/
def WithVideoCodecs (codecs : List GoStr) : HandshakeOption := fun c =>
  { c with videoCodecs := codecs }

/-- `WithImageFormats`. -/
def WithImageFormats (formats : List GoStr) : HandshakeOption := fun c =>
  { c with imageFormats := formats }

/-- `WithIgnoreCert`. -/
def WithIgnoreCert : HandshakeOption := fun c =>
  { c with connectArgs := mapSet c.connectArgs "ignore-cert".data "true".data }

/-- `WithSecurity`. -/
def WithSecurity (security : GoStr) : HandshakeOption := fun c =>
  { c with connectArgs := mapSet c.connectArgs "security".data security }

/-- `setScreen`: folds width, height and dpi into the parameter map. -/
def setScreen (c : HandshakeConfig) : HandshakeConfig :=
  { c with connectArgs :=
      mapSet (mapSet (mapSet c.connectArgs "width".data (intToStr c.width))
        "height".data (intToStr c.height)) "dpi".data (intToStr c.dpi) }

/-- `NewHandshakeConfig`: defaults (rdp, 1920 x 1080 x 96), apply the
options in order, then fold the screen geometry into the map. -/
def NewHandshakeConfig (connectArgs : List (GoStr × GoStr))
    (opts : List HandshakeOption) : HandshakeConfig :=
  setScreen (opts.foldl (fun c o => o c)
    { protocol := "rdp".data
      connectArgs := connectArgs
      width := 1920
      height := 1080
      dpi := 96
      audioCodecs := []
      videoCodecs := []
      imageFormats := [] })

/-- `SelectInstruction`. -/
def SelectInstruction (h : HandshakeConfig) : Instruction :=
  NewInstruction "select".data [h.protocol]

/-- `SizeInstruction`. -/
def SizeInstruction (h : HandshakeConfig) : Instruction :=
  NewInstruction "size".data [intToStr h.width, intToStr h.height, intToStr h.dpi]

/-- `ConnectInstruction`: values of the configured map looked up by the
received parameter names, in the order the names arrive. -/
def ConnectInstruction (h : HandshakeConfig) (args : List Element) : Instruction :=
  NewInstruction "connect".data (args.map (fun a => mapGet h.connectArgs (Element.Value a)))

/-- `AudioInstruction`. -/
def AudioInstruction (h : HandshakeConfig) : Instruction :=
  NewInstruction "audio".data h.audioCodecs

/-- `VideoInstruction`. -/
def VideoInstruction (h : HandshakeConfig) : Instruction :=
  NewInstruction "video".data h.videoCodecs

/-- `ImageInstruction`. -/
def ImageInstruction (h : HandshakeConfig) : Instruction :=
  NewInstruction "image".data h.imageFormats

/-! ## Tunnel handshake (package tunnel)

The upstream connection is modelled as a script: `pending` is the queue of
complete delimited responses the buffered `ReadString(';')` calls return
(an exhausted queue reads as the empty string, the read-at-EOF result of Go,
which the source treats as non-fatal), and `written` accumulates the
writes in order. -/

structure Conn where
  pending : List GoStr
  written : List GoStr

/-- One `bufio` delimited read from the scripted connection. -/
def connRead : Conn → GoStr × Conn
  | ⟨[], w⟩ => ([], ⟨[], w⟩)
  | ⟨r :: rest, w⟩ => (r, ⟨rest, w⟩)

/-- One successful write to the scripted connection. -/
def connWrite (c : Conn) (s : GoStr) : Conn := ⟨c.pending, c.written ++ [s]⟩

/-- Result of a handshake run: the returned Go error (`none` = nil), the
final connection state, the connection id field of the tunnel, and the
arguments of the synchronous on-connect callback invocations, in order. -/
structure HandshakeOutcome where
  err : Option GoStr
  conn : Conn
  connId : GoStr
  onConnectCalls : List GoStr

/-- `Tunnel.Handshake` (package tunnel): send `select`, decode the
response (aborting on a decoded `error` instruction), send the
size/audio/video/image/connect batch as one write, decode the second
response, require a first argument as the connection id, fire the
on-connect callback.  Outer `none` models a decoding panic. -/
def Tunnel.Handshake (cfg : HandshakeConfig) (hasOnConnect : Bool)
    (connId0 : GoStr) (c0 : Conn) : Option HandshakeOutcome :=
  let c1 := connWrite c0 (SelectInstruction cfg)
  let r1 := connRead c1
  match Instruction.Error r1.1 with
  | none => none
  | some (some e) => some ⟨some e, r1.2, connId0, []⟩
  | some none =>
    match Instruction.Args r1.1 with
    | none => none
    | some args =>
      let full := SizeInstruction cfg ++ AudioInstruction cfg ++ VideoInstruction cfg
        ++ ImageInstruction cfg ++ ConnectInstruction cfg args
      let c3 := connWrite r1.2 full
      let r2 := connRead c3
      match Instruction.Error r2.1 with
      | none => none
      | some (some e) => some ⟨some e, r2.2, connId0, []⟩
      | some none =>
        match Instruction.Args r2.1 with
        | none => none
        | some [] => some ⟨some "no connection ID received".data, r2.2, connId0, []⟩
        | some (a :: _) =>
          some ⟨none, r2.2, Element.Value a,
            if hasOnConnect then [Element.Value a] else []⟩

/-! ## Tunnel forwarding engine (package tunnel) -/

/-- `Tunnel.setError`: record the error only when no error is latched
yet.  Go errors passed here are always non-nil, so an error is a plain
message string. -/
def setError (cur : Option GoStr) (e : GoStr) : Option GoStr :=
  if cur = none then some e else cur

/-- The error latch after a sequence of `setError` calls, starting from
the nil zero value; `Forward` returns exactly this value once the shared
context is done. -/
def latchRun (errs : List GoStr) : Option GoStr := errs.foldl setError none

/-- Keep-alive configuration fields of `Tunnel`, Go zero values. -/
structure TunnelCfg where
  guacdKeepaliveInterval : Int := 0
  wsKeepaliveInterval : Int := 0
  wsKeepaliveThreshold : Int := 0

/-- `minKeepaliveInterval = 30 * time.Second`, in nanoseconds. -/
def minKeepaliveInterval : Int := 30 * 1000000000

/-- `WithGuacdKeepalive`: floor the interval at 30 seconds. -/
def WithGuacdKeepalive (interval : Int) : TunnelCfg → TunnelCfg := fun t =>
  { t with guacdKeepaliveInterval :=
      if interval < minKeepaliveInterval then minKeepaliveInterval else interval }

/-- `WithWsKeepalive`: floor the interval at 30 seconds and the liveness
threshold at 1. -/
def WithWsKeepalive (interval threshold : Int) : TunnelCfg → TunnelCfg := fun t =>
  { t with
      wsKeepaliveInterval :=
        if interval < minKeepaliveInterval then minKeepaliveInterval else interval
      wsKeepaliveThreshold := if threshold < 1 then 1 else threshold }

/-- `NewTunnel` keep-alive configuration: zero values, options applied in
order. -/
def NewTunnel (opts : List (TunnelCfg → TunnelCfg)) : TunnelCfg :=
  opts.foldl (fun t o => o t) {}

/-- The concurrent activities `Forward` can start. -/
inductive Activity
  | guacdKeepalive
  | wsKeepalive
  | guacdToWsPump
  | wsToGuacdPump
deriving DecidableEq

/-- The activities `Forward` starts: each keep-alive loop exactly when its
interval is positive, and always both pumps. -/
def forwardActivities (t : TunnelCfg) : List Activity :=
  (if 0 < t.guacdKeepaliveInterval then [Activity.guacdKeepalive] else [])
    ++ (if 0 < t.wsKeepaliveInterval then [Activity.wsKeepalive] else [])
    ++ [Activity.guacdToWsPump, Activity.wsToGuacdPump]

/-- Outcome of one websocket write in the upstream-to-downstream pump. -/
inductive WsWrite
  | ok
  | errW (e : GoStr)
deriving DecidableEq

/-- One event of the scripted upstream read loop in `guacdToWs`: a
complete delimited chunk together with the outcome of forwarding it to
the websocket, a clean end of stream, or a read failure. -/
inductive GuacdEv
  | data (b : GoStr) (w : WsWrite)
  | eofEv
  | errEv (e : GoStr)
deriving DecidableEq

/-- Error recorded for an upstream read failure. -/
def readGuacdErrMsg (e : GoStr) : GoStr := "read data from guacd error: ".data ++ e

/-- Error recorded for a downstream write failure. -/
def writeWsErrMsg (e : GoStr) : GoStr := "write data to ws error: ".data ++ e

/-- `Tunnel.guacdToWs` over a scripted event sequence: EOF returns with
the latch untouched; a read failure latches it; the first chunk read
ever (the `sync.Once` guard, `onceDone` false) is decoded and a decoded
`error` instruction is latched; a write failure latches it.  Returns the
final latch; an exhausted script is a cancellation.  `none` models a
panic inside the `Error()` call of the once-check. -/
def guacdToWs : List GuacdEv → Bool → Option GoStr → Option (Option GoStr)
  | [], _, latch => some latch
  | GuacdEv.eofEv :: _, _, latch => some latch
  | GuacdEv.errEv e :: _, _, latch => some (setError latch (readGuacdErrMsg e))
  | GuacdEv.data b w :: rest, onceDone, latch =>
    let afterOnce : Option (Option GoStr) :=
      if onceDone then some latch
      else
        match Instruction.Error b with
        | none => none
        | some none => some latch
        | some (some e) => some (setError latch e)
    match afterOnce with
    | none => none
    | some latch' =>
      match w with
      | WsWrite.ok => guacdToWs rest true latch'
      | WsWrite.errW e => some (setError latch' (writeWsErrMsg e))

/-! ## Supporting lemmas: decimal digits and `strconv` round-trips -/

/-- A decimal digit character is none of the special protocol
characters. -/
theorem isDigit_ne_special (c : Char) (h : c.isDigit = true) :
    c ≠ '+' ∧ c ≠ '-' ∧ c ≠ '.' ∧ c ≠ ',' ∧ c ≠ ';' := by
  refine ⟨?_, ?_, ?_, ?_, ?_⟩ <;> rintro rfl <;> exact absurd h (by decide)

theorem natToDigitChar_isDigit (d : Nat) (hd : d < 10) :
    (natToDigitChar d).isDigit = true := by
  interval_cases d <;> decide

theorem digitVal_natToDigitChar (d : Nat) (hd : d < 10) :
    digitVal (natToDigitChar d) = d := by
  interval_cases d <;> decide

theorem digitsVal_append_singleton (xs : GoStr) (c : Char) :
    digitsVal (xs ++ [c]) = 10 * digitsVal xs + digitVal c := by
  simp [digitsVal, List.foldl_append]

theorem natToStrRec_all_isDigit (fuel n : Nat) :
    ∀ c ∈ natToStrRec fuel n, c.isDigit = true := by
  induction fuel generalizing n with
  | zero => intro c hc; simp [natToStrRec] at hc
  | succ fuel ih =>
    intro c hc
    by_cases hn : n = 0
    · simp [natToStrRec, hn] at hc
    · simp only [natToStrRec, if_neg hn, List.mem_append, List.mem_singleton] at hc
      rcases hc with hc | rfl
      · exact ih (n / 10) c hc
      · exact natToDigitChar_isDigit _ (Nat.mod_lt _ (by omega))

theorem digitsVal_natToStrRec (fuel n : Nat) (h : n ≤ fuel) :
    digitsVal (natToStrRec fuel n) = n := by
  induction fuel generalizing n with
  | zero =>
    have : n = 0 := by omega
    simp [natToStrRec, this, digitsVal]
  | succ fuel ih =>
    by_cases hn : n = 0
    · simp [natToStrRec, hn, digitsVal]
    · have hdiv : n / 10 ≤ fuel := by
        have := Nat.div_lt_self (by omega : 0 < n) (by omega : 1 < 10)
        omega
      simp only [natToStrRec, if_neg hn, digitsVal_append_singleton, ih _ hdiv,
        digitVal_natToDigitChar _ (Nat.mod_lt _ (by omega))]
      omega

theorem natToStrRec_ne_nil (fuel n : Nat) (h1 : 1 ≤ n) (h2 : n ≤ fuel) :
    natToStrRec fuel n ≠ [] := by
  cases fuel with
  | zero => omega
  | succ fuel =>
    simp only [natToStrRec, if_neg (by omega : ¬ n = 0)]
    simp

theorem natToStr_all_isDigit (n : Nat) : ∀ c ∈ natToStr n, c.isDigit = true := by
  intro c hc
  by_cases hn : n = 0
  · simp [natToStr, hn] at hc
    simp [hc]
  · simp only [natToStr, if_neg hn] at hc
    exact natToStrRec_all_isDigit n n c hc

theorem natToStr_ne_nil (n : Nat) : natToStr n ≠ [] := by
  by_cases hn : n = 0
  · simp [natToStr, hn]
  · simp only [natToStr, if_neg hn]
    exact natToStrRec_ne_nil n n (by omega) le_rfl

theorem natToStr_length_pos (n : Nat) : 1 ≤ (natToStr n).length :=
  List.length_pos.mpr (natToStr_ne_nil n)

theorem digitsVal_natToStr (n : Nat) : digitsVal (natToStr n) = n := by
  by_cases hn : n = 0
  · simp [natToStr, hn]; decide
  · simp only [natToStr, if_neg hn]
    exact digitsVal_natToStrRec n n le_rfl

/-- `strconv.Atoi` undoes `strconv.Itoa` on natural numbers. -/
theorem goAtoi_natToStr (n : Nat) : goAtoi (natToStr n) = (n : Int) := by
  obtain ⟨c, cs, hcons⟩ : ∃ c cs, natToStr n = c :: cs := by
    cases h : natToStr n with
    | nil => exact absurd h (natToStr_ne_nil n)
    | cons c cs => exact ⟨c, cs, rfl⟩
  have hall : (c :: cs).all Char.isDigit = true := by
    rw [List.all_eq_true]
    intro x hx
    exact natToStr_all_isDigit n x (hcons ▸ hx)
  have hc : c.isDigit = true := by
    have := List.all_eq_true.mp hall c (by simp)
    simpa using this
  obtain ⟨hplus, hminus, -, -, -⟩ := isDigit_ne_special c hc
  rw [hcons, goAtoi, if_neg hplus, if_neg hminus, if_pos hall, ← hcons,
    digitsVal_natToStr]

/-! ## Supporting lemmas: slicing at the length of a known prefix -/

theorem take_len_append (p q : GoStr) : (p ++ q).take p.length = p := by
  induction p with
  | nil => rfl
  | cons c cs ih => simp [ih]

theorem drop_len_append (p q : GoStr) : (p ++ q).drop p.length = q := by
  induction p with
  | nil => rfl
  | cons c cs ih => simp [ih]

theorem getElem?_len_append (p q : GoStr) : (p ++ q)[p.length]? = q[0]? := by
  induction p with
  | nil => rfl
  | cons c cs ih => simp [ih]

theorem drop_len_append_cons (p : GoStr) (c : Char) (q : GoStr) :
    (p ++ c :: q).drop (p.length + 1) = q := by
  simp

/-! ## Supporting lemmas: `strIndex` -/

theorem strIndex_eq_none (s : GoStr) (t : Char) (h : ∀ c ∈ s, c ≠ t) :
    strIndex s t = none := by
  induction s with
  | nil => rfl
  | cons c cs ih =>
    have h1 : ¬ c = t := h c (by simp)
    have h2 := ih (fun x hx => h x (by simp [hx]))
    simp [strIndex, h1, h2]

theorem strIndex_append_cons (p : GoStr) (t : Char) (q : GoStr)
    (h : ∀ c ∈ p, c ≠ t) : strIndex (p ++ t :: q) t = some p.length := by
  induction p with
  | nil => simp [strIndex]
  | cons c cs ih =>
    have h1 : ¬ c = t := h c (by simp)
    have h2 := ih (fun x hx => h x (by simp [hx]))
    simp [strIndex, h1, h2]

theorem strLastIndex_append_singleton (p : GoStr) (t : Char) :
    strLastIndex (p ++ [t]) t = some p.length := by
  simp [strLastIndex, strIndex]

/-! ## Supporting lemmas: elements -/

/-- No character of the length prefix of an encoded element is special. -/
theorem natToStr_not_mem (n : Nat) (t : Char) (ht : t.isDigit = false) :
    ∀ c ∈ natToStr n, c ≠ t := by
  intro c hc
  have := natToStr_all_isDigit n c hc
  intro hct
  rw [hct, ht] at this
  exact absurd this (by simp)

theorem strIndex_newElement_dot (s tail : GoStr) :
    strIndex (NewElement s ++ tail) '.' = some (natToStr s.length).length := by
  have : NewElement s ++ tail = natToStr s.length ++ '.' :: (s ++ tail) := by
    simp [NewElement]
  rw [this]
  exact strIndex_append_cons _ _ _ (natToStr_not_mem _ _ (by decide))

theorem value_newElement (s : GoStr) : Element.Value (NewElement s) = s := by
  have h := strIndex_newElement_dot s []
  simp only [List.append_nil] at h
  have e : NewElement s = (natToStr s.length) ++ '.' :: s := by simp [NewElement]
  simp only [Element.Value, h]
  rw [e]
  exact drop_len_append_cons _ _ _

theorem length_newElement (s : GoStr) :
    Element.Length (NewElement s) = some (s.length : Int) := by
  have h := strIndex_newElement_dot s []
  simp only [List.append_nil] at h
  have e : NewElement s = (natToStr s.length) ++ '.' :: s := by simp [NewElement]
  simp only [Element.Length, h]
  rw [e, take_len_append, goAtoi_natToStr]

/-- Characters of an encoded element are digits, the dot, or characters
of the encoded value. -/
theorem mem_newElement (s : GoStr) (c : Char) (hc : c ∈ NewElement s) :
    c.isDigit = true ∨ c = '.' ∨ c ∈ s := by
  simp only [NewElement, List.mem_append, List.mem_cons] at hc
  rcases hc with hc | rfl | hc
  · exact Or.inl (natToStr_all_isDigit _ c hc)
  · exact Or.inr (Or.inl rfl)
  · exact Or.inr (Or.inr hc)

/-! ## Supporting lemmas: decoding an encoded instruction -/

theorem joinComma_encodeArgs (a : GoStr) (l : List GoStr) :
    joinComma ((a :: l).map NewElement) ++ [';'] = encodeArgs a l := by
  induction l generalizing a with
  | nil => rfl
  | cons b l ih =>
    simp only [List.map_cons, joinComma, encodeArgs, List.cons_append,
      List.append_assoc]
    rw [← ih b]
    simp [joinComma]

theorem newInstruction_nil (op : GoStr) :
    NewInstruction op [] = NewElement op ++ [';'] := rfl

theorem newInstruction_cons (op a : GoStr) (l : List GoStr) :
    NewInstruction op (a :: l) = NewElement op ++ ',' :: encodeArgs a l := by
  rw [NewInstruction, ← joinComma_encodeArgs a l]
  simp [joinComma]

theorem encodeArgs_length (a : GoStr) (l : List GoStr) :
    l.length + 1 ≤ (encodeArgs a l).length := by
  induction l generalizing a with
  | nil => simp [encodeArgs]
  | cons b l ih =>
    have := ih b
    simp only [encodeArgs, List.length_append, List.length_cons]
    omega

theorem argEnd_encoded (a tail : GoStr) :
    argEnd (NewElement a ++ tail) (natToStr a.length).length = (NewElement a).length := by
  have e : NewElement a ++ tail = natToStr a.length ++ '.' :: (a ++ tail) := by
    simp [NewElement]
  rw [argEnd, e, take_len_append, goAtoi_natToStr]
  simp only [List.length_append, List.length_cons, NewElement, Int.toNat_natCast]
  omega

theorem argsLoop_encodeArgs (l : List GoStr) (a : GoStr) (fuel : Nat)
    (hf : l.length < fuel) :
    argsLoop fuel (encodeArgs a l) = some ((a :: l).map NewElement) := by
  induction l generalizing a fuel with
  | nil =>
    cases fuel with
    | zero => omega
    | succ fuel =>
      have hdot := strIndex_newElement_dot a [';']
      have hend := argEnd_encoded a [';']
      have hget : (NewElement a ++ [';'])[(NewElement a).length]? = some ';' := by
        rw [getElem?_len_append]
        rfl
      have htake := take_len_append (NewElement a) [';']
      simp [encodeArgs, argsLoop, hdot, hend, hget, htake]
  | cons b l ih =>
    cases fuel with
    | zero => omega
    | succ fuel =>
      have hdot := strIndex_newElement_dot a (',' :: encodeArgs b l)
      have hend := argEnd_encoded a (',' :: encodeArgs b l)
      have hget : (NewElement a ++ ',' :: encodeArgs b l)[(NewElement a).length]?
          = some ',' := by
        rw [getElem?_len_append]
        simp
      have htake := take_len_append (NewElement a) (',' :: encodeArgs b l)
      have hdrop := drop_len_append_cons (NewElement a) ',' (encodeArgs b l)
      have hrec := ih b fuel (by simp only [List.length_cons] at hf; omega)
      simp [encodeArgs, argsLoop, hdot, hend, hget, htake, hdrop, hrec]

theorem newElement_no_comma (op : GoStr) (hop : ',' ∉ op) :
    ∀ c ∈ NewElement op, c ≠ ',' := by
  intro c hc
  rcases mem_newElement op c hc with hd | rfl | hmem
  · exact (isDigit_ne_special c hd).2.2.2.1
  · decide
  · intro h
    rw [h] at hmem
    exact hop hmem

theorem strIndex_comma_newInstruction_nil (op : GoStr) (hop : ',' ∉ op) :
    strIndex (NewElement op ++ [';']) ',' = none := by
  apply strIndex_eq_none
  intro c hc
  rcases List.mem_append.mp hc with hc | hc
  · exact newElement_no_comma op hop c hc
  · simp at hc
    rw [hc]
    decide

/-- Decoding the opcode of an encoded instruction recovers the encoded
opcode element, provided the opcode value contains no comma. -/
theorem opcode_newInstruction (op : GoStr) (args : List GoStr) (hop : ',' ∉ op) :
    Instruction.Opcode (NewInstruction op args) = some (NewElement op) := by
  cases args with
  | nil =>
    rw [newInstruction_nil]
    have hnone := strIndex_comma_newInstruction_nil op hop
    have hlast := strLastIndex_append_singleton (NewElement op) ';'
    simp only [Instruction.Opcode, hnone, hlast]
    rw [take_len_append]
  | cons a l =>
    rw [newInstruction_cons]
    have hidx := strIndex_append_cons (NewElement op) ',' (encodeArgs a l)
      (newElement_no_comma op hop)
    simp only [Instruction.Opcode, hidx]
    rw [take_len_append]

/-- Decoding the arguments of an encoded instruction recovers the encoded
argument elements, provided the opcode value contains no comma. -/
theorem args_newInstruction (op : GoStr) (args : List GoStr) (hop : ',' ∉ op) :
    Instruction.Args (NewInstruction op args) = some (args.map NewElement) := by
  cases args with
  | nil =>
    rw [newInstruction_nil]
    have hnone := strIndex_comma_newInstruction_nil op hop
    simp [Instruction.Args, hnone]
  | cons a l =>
    rw [newInstruction_cons]
    have hidx := strIndex_append_cons (NewElement op) ',' (encodeArgs a l)
      (newElement_no_comma op hop)
    have hdrop := drop_len_append_cons (NewElement op) ',' (encodeArgs a l)
    have hlen : l.length < (NewElement op ++ ',' :: encodeArgs a l).length + 1 := by
      have := encodeArgs_length a l
      simp only [List.length_append, List.length_cons]
      omega
    have hloop := argsLoop_encodeArgs l a
      ((NewElement op ++ ',' :: encodeArgs a l).length + 1) hlen
    simp only [Instruction.Args, hidx, hdrop, hloop]

theorem map_value_newElement (l : List GoStr) :
    (l.map NewElement).map Element.Value = l := by
  induction l with
  | nil => rfl
  | cons a l ih => simp [value_newElement, ih]

/-! ## Supporting lemmas: error instructions -/

theorem isError_newInstruction (op : GoStr) (args : List GoStr) (hop : ',' ∉ op) :
    Instruction.IsError (NewInstruction op args) = some (decide (op = "error".data)) := by
  simp only [Instruction.IsError, opcode_newInstruction op args hop, value_newElement]

theorem error_newInstruction_not_error (op : GoStr) (args : List GoStr)
    (hop : ',' ∉ op) (hne : op ≠ "error".data) :
    Instruction.Error (NewInstruction op args) = some none := by
  have h := isError_newInstruction op args hop
  rw [decide_eq_false hne] at h
  simp only [Instruction.Error, h]

theorem error_newInstruction_error (msg code : GoStr) (rest : List GoStr) :
    Instruction.Error (NewInstruction "error".data (msg :: code :: rest)) =
      some (some ("server error: ".data ++ statusString (goAtoi code) ++ ' ' :: msg)) := by
  have hop : ',' ∉ "error".data := by decide
  have h := isError_newInstruction "error".data (msg :: code :: rest) hop
  rw [decide_eq_true rfl] at h
  have ha := args_newInstruction "error".data (msg :: code :: rest) hop
  simp only [Instruction.Error, h, ha, List.map_cons, value_newElement]

theorem error_newInstruction_short (args : List GoStr) (hshort : args.length < 2) :
    Instruction.Error (NewInstruction "error".data args) = none := by
  have hop : ',' ∉ "error".data := by decide
  have h := isError_newInstruction "error".data args hop
  rw [decide_eq_true rfl] at h
  have ha := args_newInstruction "error".data args hop
  match args, hshort with
  | [], _ => simp only [Instruction.Error, h, ha, List.map_nil]
  | [a], _ => simp only [Instruction.Error, h, ha, List.map_cons, List.map_nil]

theorem statusString_unrecognized (s : Int) (h : s ∉ recognizedStatusCodes) :
    statusString s = intToStr s ++ "_UNKNOWN".data := by
  simp only [recognizedStatusCodes, List.mem_cons, List.not_mem_nil, or_false,
    not_or] at h
  obtain ⟨h0, h1, h2, h3, h4, h5, h6, h7, h8, h9, h10, h11, h12, h13, h14,
    h15, h16, h17, h18, h19, h20⟩ := h
  simp only [statusString, if_neg h0, if_neg h1, if_neg h2, if_neg h3,
    if_neg h4, if_neg h5, if_neg h6, if_neg h7, if_neg h8, if_neg h9,
    if_neg h10, if_neg h11, if_neg h12, if_neg h13, if_neg h14, if_neg h15,
    if_neg h16, if_neg h17, if_neg h18, if_neg h19, if_neg h20]

/-! ## Supporting lemmas: the parameter map -/

theorem mapGet_mapSet_same (m : List (GoStr × GoStr)) (k v : GoStr) :
    mapGet (mapSet m k v) k = v := by
  induction m with
  | nil => simp [mapSet, mapGet]
  | cons p m ih =>
    obtain ⟨k0, v0⟩ := p
    by_cases h : k0 = k
    · simp [mapSet, h, mapGet]
    · simp [mapSet, h, mapGet, ih]

theorem mapGet_mapSet_other (m : List (GoStr × GoStr)) (k' v k : GoStr)
    (h : k' ≠ k) : mapGet (mapSet m k' v) k = mapGet m k := by
  induction m with
  | nil => simp [mapSet, mapGet, h]
  | cons p m ih =>
    obtain ⟨k0, v0⟩ := p
    by_cases h0 : k0 = k'
    · subst h0
      simp [mapSet, mapGet, h]
    · simp [mapSet, h0, mapGet, ih]

/-! ## Supporting lemmas: error latch and forwarding pump -/

theorem foldl_setError_some (l : List GoStr) (x : GoStr) :
    l.foldl setError (some x) = some x := by
  induction l with
  | nil => rfl
  | cons e l ih => simp [setError, ih]

theorem setError_of_some (x e : GoStr) : setError (some x) e = some x := by
  simp [setError]

/-! ## Claim theorems -/

/-- C1 counterexample: the claim quantifies over every opcode string, but
an opcode containing a comma does not survive the round trip — encoding
`"a,b"` with no arguments and decoding the opcode yields the value `"a"`,
and decoding the arguments panics instead of yielding the empty list. -/
theorem roundtrip_comma_opcode_cex :
    (Instruction.Opcode (NewInstruction "a,b".data [])).map Element.Value ≠
      some ("a,b".data) ∧
    Instruction.Args (NewInstruction "a,b".data []) ≠ some [] := by
  decide

/-- C1 (amended: the opcode must contain no comma; argument strings stay
arbitrary): decoding `NewInstruction(opcode, args...)` via
`Opcode().Value()` and `Args()` followed by `Value()` recovers the
original opcode and argument values in order, and `NewInstruction("nop")`
decodes to opcode `"nop"` with an empty argument sequence, not a parse
failure. -/
theorem roundtrip_newInstruction (op : GoStr) (args : List GoStr) (hop : ',' ∉ op) :
    (Instruction.Opcode (NewInstruction op args)).map Element.Value = some op ∧
    (Instruction.Args (NewInstruction op args)).map (List.map Element.Value) =
      some args ∧
    (Instruction.Opcode (NewInstruction "nop".data [])).map Element.Value =
      some ("nop".data) ∧
    Instruction.Args (NewInstruction "nop".data []) = some [] := by
  refine ⟨?_, ?_, by decide, by decide⟩
  · rw [opcode_newInstruction op args hop]
    simp [value_newElement]
  · rw [args_newInstruction op args hop]
    exact congrArg some (map_value_newElement args)

/-- C1 witness: the round trip at a concrete opcode and arguments that
contain commas, semicolons and periods. -/
theorem roundtrip_newInstruction_witness :
    (Instruction.Opcode (NewInstruction "select".data ["a,b;c.d".data, []])).map
        Element.Value = some ("select".data) ∧
    (Instruction.Args (NewInstruction "select".data ["a,b;c.d".data, []])).map
        (List.map Element.Value) = some ["a,b;c.d".data, []] ∧
    (Instruction.Opcode (NewInstruction "nop".data [])).map Element.Value =
      some ("nop".data) ∧
    Instruction.Args (NewInstruction "nop".data []) = some [] :=
  roundtrip_newInstruction "select".data ["a,b;c.d".data, []] (by decide)

/-- C2: the length prefix of `NewElement(s)` is the code-point count of
`s` (not its UTF-8 byte count), and decoding an encoded instruction
advances by code points: every argument value is recovered exactly and
the `Length()` of every decoded element equals the code-point count of its
`Value()`. -/
theorem element_codepoint_length (s op : GoStr) (args : List GoStr)
    (hop : ',' ∉ op) :
    Element.Length (NewElement s) = some (s.length : Int) ∧
    Element.Value (NewElement s) = s ∧
    (s.length ≠ utf8Len s →
      Element.Length (NewElement s) ≠ some (utf8Len s : Int)) ∧
    Instruction.Args (NewInstruction op args) = some (args.map NewElement) ∧
    (args.map NewElement).map Element.Value = args ∧
    ∀ e ∈ args.map NewElement,
      Element.Length e = some ((Element.Value e).length : Int) := by
  refine ⟨length_newElement s, value_newElement s, ?_,
    args_newInstruction op args hop, map_value_newElement args, ?_⟩
  · intro hne heq
    rw [length_newElement s] at heq
    simp only [Option.some.injEq, Int.natCast_inj] at heq
    exact hne heq
  · intro e he
    obtain ⟨a, ha, rfl⟩ := List.mem_map.mp he
    rw [length_newElement a, value_newElement a]

/-- C2 witness: a value of 3 code points and 9 UTF-8 bytes gets length
prefix 3, not 9, and round-trips through an instruction. -/
theorem element_codepoint_length_witness :
    ("€€€".data.length = 3 ∧ utf8Len "€€€".data = 9) ∧
    (Element.Length (NewElement "€€€".data) = some ("€€€".data.length : Int) ∧
     Element.Value (NewElement "€€€".data) = "€€€".data ∧
     ("€€€".data.length ≠ utf8Len "€€€".data →
       Element.Length (NewElement "€€€".data) ≠ some (utf8Len "€€€".data : Int)) ∧
     Instruction.Args (NewInstruction "size".data ["€€€".data]) =
       some (["€€€".data].map NewElement) ∧
     (["€€€".data].map NewElement).map Element.Value = ["€€€".data] ∧
     ∀ e ∈ ["€€€".data].map NewElement,
       Element.Length e = some ((Element.Value e).length : Int)) :=
  ⟨by decide, element_codepoint_length "€€€".data "size".data ["€€€".data] (by decide)⟩

/-- C6: an instruction is detected as an error instruction exactly when
its opcode value is `"error"`; for an error instruction with arguments
`[message, statusCode]`, `Error()` combines the symbolic status name
and the message; an unrecognized numeric code decodes to an
unknown-status error without crashing; a non-error instruction yields
nil. -/
theorem error_instruction_detection :
    (∀ (i : Instruction) (o : Element), Instruction.Opcode i = some o →
      (Instruction.IsError i = some true ↔ Element.Value o = "error".data)) ∧
    (∀ (msg code : GoStr) (rest : List GoStr),
      Instruction.Error (NewInstruction "error".data (msg :: code :: rest)) =
        some (some ("server error: ".data ++ statusString (goAtoi code)
          ++ ' ' :: msg))) ∧
    (∀ s : Int, s ∉ recognizedStatusCodes →
      statusString s = intToStr s ++ "_UNKNOWN".data) ∧
    (∀ (op : GoStr) (args : List GoStr), ',' ∉ op → op ≠ "error".data →
      Instruction.Error (NewInstruction op args) = some none) := by
  refine ⟨?_, error_newInstruction_error, statusString_unrecognized,
    error_newInstruction_not_error⟩
  intro i o h
  simp [Instruction.IsError, h]

/-- C6 witness: a recognized and an unrecognized status code, and a
non-error instruction, at concrete inputs. -/
theorem error_instruction_detection_witness :
    (Instruction.IsError (NewInstruction "error".data ["denied".data, "999".data])
        = some true ↔
      Element.Value (NewElement "error".data) = "error".data) ∧
    Instruction.Error (NewInstruction "error".data ["denied".data, "999".data]) =
      some (some ("server error: ".data ++ statusString (goAtoi "999".data)
        ++ ' ' :: "denied".data)) ∧
    statusString 999 = intToStr 999 ++ "_UNKNOWN".data ∧
    Instruction.Error (NewInstruction "ready".data ["cid".data]) = some none := by
  refine ⟨?_, ?_, ?_, ?_⟩
  · exact error_instruction_detection.1 _ _
      (opcode_newInstruction "error".data ["denied".data, "999".data] (by decide))
  · exact error_instruction_detection.2.1 "denied".data "999".data []
  · exact error_instruction_detection.2.2.1 999 (by decide)
  · exact error_instruction_detection.2.2.2 "ready".data ["cid".data]
      (by decide) (by decide)

/-- C10: decoding is partial — `Args` panics on a length prefix running
past the data, `Opcode` panics without comma and semicolon, `Error`
panics on an error instruction with fewer than two arguments — while
`Opcode` and `Args` are total on every completely encoded instruction
(with a comma-free opcode, the regime in which decoding is used). -/
theorem decoding_panics_and_totality (op : GoStr) (args : List GoStr)
    (hop : ',' ∉ op) :
    Instruction.Args ("1.x,5.ab;".data) = none ∧
    Instruction.Opcode ("abc".data) = none ∧
    Instruction.Error (NewInstruction "error".data []) = none ∧
    (Instruction.Opcode (NewInstruction op args)).isSome = true ∧
    (Instruction.Args (NewInstruction op args)).isSome = true := by
  refine ⟨by decide, by decide, error_newInstruction_short [] (by decide), ?_, ?_⟩
  · rw [opcode_newInstruction op args hop]
    rfl
  · rw [args_newInstruction op args hop]
    rfl

/-- C10 witness: totality of decoding at a concrete encoded
instruction. -/
theorem decoding_panics_and_totality_witness :
    Instruction.Args ("1.x,5.ab;".data) = none ∧
    Instruction.Opcode ("abc".data) = none ∧
    Instruction.Error (NewInstruction "error".data []) = none ∧
    (Instruction.Opcode (NewInstruction "nop".data [])).isSome = true ∧
    (Instruction.Args (NewInstruction "nop".data [])).isSome = true :=
  decoding_panics_and_totality "nop".data [] (by decide)

/-- C3: `ConnectInstruction` emits exactly the configured values looked
up by the received parameter names, in the order the names were
received; configs whose parameter maps agree pointwise produce the same
connect instruction regardless of the order options were applied; in
particular, for received names `[hostname, port, username]` the connect
arguments are the configured hostname, port and username values in that
order, whether host/port were configured before or after the
credentials. -/
theorem connect_instruction_order (c1 c2 : HandshakeConfig)
    (names : List Element)
    (hagree : ∀ k, mapGet c1.connectArgs k = mapGet c2.connectArgs k) :
    Instruction.Args (ConnectInstruction c1 names) =
      some ((names.map (fun a => mapGet c1.connectArgs (Element.Value a))).map
        NewElement) ∧
    (Instruction.Args (ConnectInstruction c1 names)).map (List.map Element.Value) =
      some (names.map (fun a => mapGet c1.connectArgs (Element.Value a))) ∧
    ConnectInstruction c1 names = ConnectInstruction c2 names ∧
    (∀ hn pt un pw : GoStr,
      ConnectInstruction
          (NewHandshakeConfig [] [WithHostPort hn pt, WithAuth un pw])
          (["hostname".data, "port".data, "username".data].map NewElement) =
        NewInstruction "connect".data [hn, pt, un] ∧
      ConnectInstruction
          (NewHandshakeConfig [] [WithAuth un pw, WithHostPort hn pt])
          (["hostname".data, "port".data, "username".data].map NewElement) =
        NewInstruction "connect".data [hn, pt, un]) := by
  have hop : ',' ∉ "connect".data := by decide
  refine ⟨args_newInstruction _ _ hop, ?_, ?_, ?_⟩
  · rw [ConnectInstruction, args_newInstruction _ _ hop]
    exact congrArg some (map_value_newElement _)
  · have hf : (fun a => mapGet c1.connectArgs (Element.Value a)) =
        (fun a => mapGet c2.connectArgs (Element.Value a)) :=
      funext (fun a => hagree _)
    rw [ConnectInstruction, ConnectInstruction, hf]
  · intro hn pt un pw
    have d1 : ("port".data : GoStr) ≠ "hostname".data := by decide
    have d2 : ("username".data : GoStr) ≠ "hostname".data := by decide
    have d3 : ("password".data : GoStr) ≠ "hostname".data := by decide
    have d4 : ("width".data : GoStr) ≠ "hostname".data := by decide
    have d5 : ("height".data : GoStr) ≠ "hostname".data := by decide
    have d6 : ("dpi".data : GoStr) ≠ "hostname".data := by decide
    have d7 : ("username".data : GoStr) ≠ "port".data := by decide
    have d8 : ("password".data : GoStr) ≠ "port".data := by decide
    have d9 : ("width".data : GoStr) ≠ "port".data := by decide
    have d10 : ("height".data : GoStr) ≠ "port".data := by decide
    have d11 : ("dpi".data : GoStr) ≠ "port".data := by decide
    have d12 : ("password".data : GoStr) ≠ "username".data := by decide
    have d13 : ("width".data : GoStr) ≠ "username".data := by decide
    have d14 : ("height".data : GoStr) ≠ "username".data := by decide
    have d15 : ("dpi".data : GoStr) ≠ "username".data := by decide
    have d16 : ("hostname".data : GoStr) ≠ "username".data := by decide
    have d17 : ("port".data : GoStr) ≠ "username".data := by decide
    constructor <;>
      simp [ConnectInstruction, NewHandshakeConfig, WithHostPort, WithAuth,
        setScreen, value_newElement, mapGet_mapSet_same, mapGet_mapSet_other,
        d1, d2, d3, d4, d5, d6, d7, d8, d9, d10, d11, d12, d13, d14, d15,
        d16, d17]

/-- C3 witness: the pointwise-agreement instance at concrete
configurations and parameter names. -/
theorem connect_instruction_order_witness :
    Instruction.Args (ConnectInstruction (NewHandshakeConfig [] []) []) =
      some (((([] : List Element)).map (fun a =>
        mapGet (NewHandshakeConfig [] []).connectArgs (Element.Value a))).map
          NewElement) ∧
    (Instruction.Args (ConnectInstruction (NewHandshakeConfig [] []) [])).map
        (List.map Element.Value) =
      some ((([] : List Element)).map (fun a =>
        mapGet (NewHandshakeConfig [] []).connectArgs (Element.Value a))) ∧
    ConnectInstruction (NewHandshakeConfig [] []) [] =
      ConnectInstruction (NewHandshakeConfig [] []) [] ∧
    (∀ hn pt un pw : GoStr,
      ConnectInstruction
          (NewHandshakeConfig [] [WithHostPort hn pt, WithAuth un pw])
          (["hostname".data, "port".data, "username".data].map NewElement) =
        NewInstruction "connect".data [hn, pt, un] ∧
      ConnectInstruction
          (NewHandshakeConfig [] [WithAuth un pw, WithHostPort hn pt])
          (["hostname".data, "port".data, "username".data].map NewElement) =
        NewInstruction "connect".data [hn, pt, un]) :=
  connect_instruction_order (NewHandshakeConfig [] []) (NewHandshakeConfig [] [])
    [] (fun _ => rfl)

/-- C4: when the first server response to `select` is an error
instruction, `Handshake` returns the decoded server error (status name
and message) and writes nothing beyond the `select` instruction — in
particular no connect batch reaches the upstream connection; the
connection id stays unset and no callback fires. -/
theorem handshake_select_error_aborts (cfg : HandshakeConfig) (hasCb : Bool)
    (cid0 msg code : GoStr) (rest w0 : List GoStr)
    (_hmsg : ';' ∉ msg) (_hcode : ';' ∉ code) :
    Tunnel.Handshake cfg hasCb cid0
        ⟨NewInstruction "error".data [msg, code] :: rest, w0⟩ =
      some ⟨some ("server error: ".data ++ statusString (goAtoi code) ++ ' ' :: msg),
        ⟨rest, w0 ++ [SelectInstruction cfg]⟩, cid0, []⟩ := by
  have herr := error_newInstruction_error msg code []
  simp [Tunnel.Handshake, connWrite, connRead, herr]

/-- C4 witness: an unauthorized error response at concrete inputs. -/
theorem handshake_select_error_aborts_witness :
    Tunnel.Handshake (NewHandshakeConfig [] []) false []
        ⟨[NewInstruction "error".data ["denied".data, "769".data]], []⟩ =
      some ⟨some ("server error: ".data ++ statusString (goAtoi "769".data)
          ++ ' ' :: "denied".data),
        ⟨[], [] ++ [SelectInstruction (NewHandshakeConfig [] [])]⟩, [], []⟩ :=
  handshake_select_error_aborts (NewHandshakeConfig [] []) false []
    "denied".data "769".data [] [] (by decide) (by decide)

/-- C5: when the response to `connect` is a non-error instruction with
zero arguments, `Handshake` returns the "no connection ID received"
error and leaves the connection id unset; with at least one argument it
sets the connection id to the value of the first argument, fires the
on-connect callback (exactly when configured) with that id before
returning, and returns no error. -/
theorem handshake_ready_connId (cfg : HandshakeConfig) (hasCb : Bool)
    (cid0 aop : GoStr) (params : List GoStr) (rop : GoStr)
    (rest w0 : List GoStr)
    (haop : ',' ∉ aop) (haopE : aop ≠ "error".data)
    (hrop : ',' ∉ rop) (hropE : rop ≠ "error".data) :
    Tunnel.Handshake cfg hasCb cid0
        ⟨NewInstruction aop params :: NewInstruction rop [] :: rest, w0⟩ =
      some ⟨some "no connection ID received".data,
        ⟨rest, w0 ++ [SelectInstruction cfg,
          SizeInstruction cfg ++ AudioInstruction cfg ++ VideoInstruction cfg
            ++ ImageInstruction cfg
            ++ ConnectInstruction cfg (params.map NewElement)]⟩, cid0, []⟩ ∧
    (∀ (v : GoStr) (vs : List GoStr),
      Tunnel.Handshake cfg hasCb cid0
          ⟨NewInstruction aop params :: NewInstruction rop (v :: vs) :: rest, w0⟩ =
        some ⟨none,
          ⟨rest, w0 ++ [SelectInstruction cfg,
            SizeInstruction cfg ++ AudioInstruction cfg ++ VideoInstruction cfg
              ++ ImageInstruction cfg
              ++ ConnectInstruction cfg (params.map NewElement)]⟩,
          v, if hasCb then [v] else []⟩) := by
  have herrA := error_newInstruction_not_error aop params haop haopE
  have hargsA := args_newInstruction aop params haop
  have herrR0 := error_newInstruction_not_error rop [] hrop hropE
  have hargsR0 := args_newInstruction rop [] hrop
  constructor
  · simp [Tunnel.Handshake, connWrite, connRead, herrA, hargsA, herrR0, hargsR0]
  · intro v vs
    have herrR := error_newInstruction_not_error rop (v :: vs) hrop hropE
    have hargsR := args_newInstruction rop (v :: vs) hrop
    simp [Tunnel.Handshake, connWrite, connRead, herrA, hargsA, herrR, hargsR,
      value_newElement]

/-- C5 witness: both outcomes at concrete instructions (`args` then an
argument-less `ready`, and `args` then `ready` carrying a connection
id). -/
theorem handshake_ready_connId_witness :
    Tunnel.Handshake (NewHandshakeConfig [] []) true []
        ⟨NewInstruction "args".data ["hostname".data] ::
          NewInstruction "ready".data [] :: [], []⟩ =
      some ⟨some "no connection ID received".data,
        ⟨[], [] ++ [SelectInstruction (NewHandshakeConfig [] []),
          SizeInstruction (NewHandshakeConfig [] [])
            ++ AudioInstruction (NewHandshakeConfig [] [])
            ++ VideoInstruction (NewHandshakeConfig [] [])
            ++ ImageInstruction (NewHandshakeConfig [] [])
            ++ ConnectInstruction (NewHandshakeConfig [] [])
                (["hostname".data].map NewElement)]⟩, [], []⟩ ∧
    (∀ (v : GoStr) (vs : List GoStr),
      Tunnel.Handshake (NewHandshakeConfig [] []) true []
          ⟨NewInstruction "args".data ["hostname".data] ::
            NewInstruction "ready".data (v :: vs) :: [], []⟩ =
        some ⟨none,
          ⟨[], [] ++ [SelectInstruction (NewHandshakeConfig [] []),
            SizeInstruction (NewHandshakeConfig [] [])
              ++ AudioInstruction (NewHandshakeConfig [] [])
              ++ VideoInstruction (NewHandshakeConfig [] [])
              ++ ImageInstruction (NewHandshakeConfig [] [])
              ++ ConnectInstruction (NewHandshakeConfig [] [])
                  (["hostname".data].map NewElement)]⟩,
          v, if true then [v] else []⟩) :=
  handshake_ready_connId (NewHandshakeConfig [] []) true [] "args".data
    ["hostname".data] "ready".data [] [] (by decide) (by decide)
    (by decide) (by decide)

/-- C7: the error latch is write-once first-wins — over any sequence of
`setError` calls the latch holds the first error recorded (or nothing
when none was), which is exactly what `Forward` returns, and any
`setError` on an already-set latch leaves it unchanged. -/
theorem error_latch_first_wins :
    (∀ errs : List GoStr, latchRun errs = errs.head?) ∧
    (∀ x e : GoStr, setError (some x) e = some x) := by
  constructor
  · intro errs
    cases errs with
    | nil => rfl
    | cons e l =>
      have h0 : setError none e = some e := rfl
      simp [latchRun, h0, foldl_setError_some]
  · exact setError_of_some

/-- C7 witness: the latch at a concrete call sequence. -/
theorem error_latch_first_wins_witness :
    latchRun ["a".data, "b".data] = some ("a".data) ∧
    setError (some ("a".data)) "b".data = some ("a".data) :=
  ⟨(error_latch_first_wins.1 ["a".data, "b".data]).trans rfl,
   error_latch_first_wins.2 "a".data "b".data⟩

/-- C8: in the upstream-to-downstream pump, a clean EOF on the upstream
read ends the pump with the latch untouched (so a run of successful
forwards ending in EOF leaves the latch as it started — nil when nothing
else failed), while an upstream read failure or a downstream write
failure is recorded in the latch. -/
theorem guacdToWs_eof_and_failures :
    (∀ (rest : List GuacdEv) (once : Bool) (lat : Option GoStr),
      guacdToWs (GuacdEv.eofEv :: rest) once lat = some lat) ∧
    (∀ (e : GoStr) (rest : List GuacdEv) (once : Bool) (lat : Option GoStr),
      guacdToWs (GuacdEv.errEv e :: rest) once lat =
        some (setError lat (readGuacdErrMsg e))) ∧
    (∀ (b e : GoStr) (rest : List GuacdEv) (lat : Option GoStr),
      guacdToWs (GuacdEv.data b (WsWrite.errW e) :: rest) true lat =
        some (setError lat (writeWsErrMsg e))) ∧
    (∀ (bs : List GoStr) (lat : Option GoStr),
      guacdToWs (bs.map (fun b => GuacdEv.data b WsWrite.ok) ++ [GuacdEv.eofEv])
        true lat = some lat) := by
  refine ⟨fun _ _ _ => rfl, fun _ _ _ _ => rfl, fun _ _ _ _ => rfl, ?_⟩
  intro bs lat
  induction bs with
  | nil => rfl
  | cons b bs ih => simp [guacdToWs, ih]

/-- C8 witness: a clean EOF run at concrete chunks leaves a nil latch. -/
theorem guacdToWs_eof_and_failures_witness :
    guacdToWs (GuacdEv.eofEv :: []) true none = some none ∧
    guacdToWs (["1.a;".data].map (fun b => GuacdEv.data b WsWrite.ok)
      ++ [GuacdEv.eofEv]) true none = some none :=
  ⟨guacdToWs_eof_and_failures.1 [] true none,
   guacdToWs_eof_and_failures.2.2.2 ["1.a;".data] none⟩

/-- C9: the keep-alive options floor the configured interval at 30
seconds and the downstream liveness threshold at 1, and `Forward` starts
a keep-alive activity for a direction exactly when the corresponding
interval field is positive. -/
theorem keepalive_floors_and_spawn (i n : Int) (t : TunnelCfg) :
    minKeepaliveInterval ≤ (WithGuacdKeepalive i t).guacdKeepaliveInterval ∧
    (i < minKeepaliveInterval →
      (WithGuacdKeepalive i t).guacdKeepaliveInterval = minKeepaliveInterval) ∧
    minKeepaliveInterval ≤ (WithWsKeepalive i n t).wsKeepaliveInterval ∧
    (i < minKeepaliveInterval →
      (WithWsKeepalive i n t).wsKeepaliveInterval = minKeepaliveInterval) ∧
    1 ≤ (WithWsKeepalive i n t).wsKeepaliveThreshold ∧
    (n < 1 → (WithWsKeepalive i n t).wsKeepaliveThreshold = 1) ∧
    minKeepaliveInterval = 30 * 1000000000 ∧
    (Activity.guacdKeepalive ∈ forwardActivities t ↔
      0 < t.guacdKeepaliveInterval) ∧
    (Activity.wsKeepalive ∈ forwardActivities t ↔ 0 < t.wsKeepaliveInterval) := by
  refine ⟨?_, ?_, ?_, ?_, ?_, ?_, rfl, ?_, ?_⟩
  · simp only [WithGuacdKeepalive]
    split <;> omega
  · intro h
    simp only [WithGuacdKeepalive, if_pos h]
  · simp only [WithWsKeepalive]
    split <;> omega
  · intro h
    simp only [WithWsKeepalive, if_pos h]
  · simp only [WithWsKeepalive]
    split <;> omega
  · intro h
    simp only [WithWsKeepalive, if_pos h]
  · by_cases h1 : 0 < t.guacdKeepaliveInterval <;>
      by_cases h2 : 0 < t.wsKeepaliveInterval <;>
      simp [forwardActivities, h1, h2]
  · by_cases h1 : 0 < t.guacdKeepaliveInterval <;>
      by_cases h2 : 0 < t.wsKeepaliveInterval <;>
      simp [forwardActivities, h1, h2]

/-- C9 witness: a below-floor interval and threshold are raised at a
concrete configuration. -/
theorem keepalive_floors_and_spawn_witness :
    (WithGuacdKeepalive 5 {}).guacdKeepaliveInterval = minKeepaliveInterval ∧
    (WithWsKeepalive 5 0 {}).wsKeepaliveInterval = minKeepaliveInterval ∧
    (WithWsKeepalive 5 0 {}).wsKeepaliveThreshold = 1 :=
  ⟨(keepalive_floors_and_spawn 5 0 {}).2.1 (by decide),
   (keepalive_floors_and_spawn 5 0 {}).2.2.2.1 (by decide),
   (keepalive_floors_and_spawn 5 0 {}).2.2.2.2.2.1 (by decide)⟩

end GoGuac
